import Mathlib

/-!
Shallow embedding of the realtime session manager, transcript aggregation,
delegated tool-call loop, guardrail appension and order-status lookup of the
repository, together with proofs about the frozen claims.

Sources embedded:
- src/src/app/hooks/useRealtimeSession.ts (connection lifecycle, ws.onmessage
  event routing, sendUserText, disconnect)
- src/src/app/api/test-connection/route.ts (handleToolCalls, getToolResponse,
  getNextResponseFromSupervisor)
- src/src/app/App.tsx (guardrail appension effect)
- src/src/app/lib/orderStatusApi.ts (fetchOrderStatus)

The TranscriptContext implementation (addTranscriptMessage,
updateTranscriptMessage, updateTranscriptItem) is not part of the source tree;
those three operations are modelled from the spec (section 4.4), as marked on
their doc comments. Everything else is translated from the source files.
-/

namespace RealtimeSpec

/-- Connection state of the session manager (`SessionStatus` in the source). -/
inductive SessionStatus
  | DISCONNECTED
  | CONNECTING
  | CONNECTED
deriving DecidableEq, Repr

/-- Status of one transcript item. -/
inductive ItemStatus
  | IN_PROGRESS
  | DONE
deriving DecidableEq, Repr

/-- Author of a transcript item. -/
inductive Role
  | user
  | assistant
deriving DecidableEq, Repr

/-- One conversation item held by the transcript store. -/
structure TranscriptItem where
  itemId : String
  role : Role
  text : String
  status : ItemStatus
deriving DecidableEq, Repr

/-- Modelled from the spec: the TranscriptContext implementation is not under
src/, only its callers are.  Spec 4.4: on item creation, create an item with
the given text and status IN_PROGRESS if one does not already exist for that
id; a duplicate creation for an existing id is a no-op. -/
def addTranscriptMessage (i : String) (r : Role) (t : String) :
    List TranscriptItem → List TranscriptItem
  | [] => [⟨i, r, t, ItemStatus.IN_PROGRESS⟩]
  | it :: rest =>
      if it.itemId == i then it :: rest
      else it :: addTranscriptMessage i r t rest

/-- Modelled from the spec: the TranscriptContext implementation is not under
src/.  Spec 4.4: with `append = true` the delta is appended to the existing
item's text; with `append = false` the text is replaced by the given value; if
no item exists yet for that id, one is created first (defensive ordering). -/
def updateTranscriptMessage (i : String) (t : String) (append : Bool) :
    List TranscriptItem → List TranscriptItem
  | [] => [⟨i, Role.assistant, t, ItemStatus.IN_PROGRESS⟩]
  | it :: rest =>
      if it.itemId == i then
        { it with text := if append then it.text ++ t else t } :: rest
      else it :: updateTranscriptMessage i t append rest

/-- Modelled from the spec: the TranscriptContext implementation is not under
src/.  Sets the status field of the item with the given id. -/
def updateTranscriptItem (i : String) (s : ItemStatus) :
    List TranscriptItem → List TranscriptItem :=
  List.map fun it => if it.itemId == i then { it with status := s } else it

/-- Text of the first item with the given id, if any. -/
def textOf (i : String) (ts : List TranscriptItem) : Option String :=
  (ts.find? fun it => it.itemId == i).map TranscriptItem.text

/-- Status of the first item with the given id, if any. -/
def statusOf (i : String) (ts : List TranscriptItem) : Option ItemStatus :=
  (ts.find? fun it => it.itemId == i).map TranscriptItem.status

/-- Inbound protocol notifications distinguished by the ws.onmessage switch of
src/src/app/hooks/useRealtimeSession.ts.  JavaScript reads an absent string
field as falsy, exactly like the empty string, so absent `item_id`, `delta`,
`transcript` and `role` fields are embedded as `""` / `none`. -/
inductive ServerMessage
  | itemCreated (itemId : String) (role : Option Role)
  | transcriptDelta (itemId : String) (delta : String)
  | transcriptDone (itemId : String) (transcript : String)
  | audioDelta (delta : String)
  | errorMsg (err : String)
  | other (ty : String)
deriving DecidableEq, Repr

/-- Transcript effect of one parsed server message: the switch statement in
ws.onmessage of useRealtimeSession.ts (lines 119-170). -/
def handleServerMessage (ts : List TranscriptItem) : ServerMessage → List TranscriptItem
  | ServerMessage.itemCreated i r =>
      if r == some Role.assistant then
        addTranscriptMessage i Role.assistant "[Generating response...]" ts
      else ts
  | ServerMessage.transcriptDelta i d =>
      if i != "" && d != "" then updateTranscriptMessage i d true ts else ts
  | ServerMessage.transcriptDone i tr =>
      if i != "" then
        let finalText := if tr != "" then tr else "[Audio response completed]"
        updateTranscriptItem i ItemStatus.DONE
          (updateTranscriptMessage i finalText false ts)
      else ts
  | ServerMessage.audioDelta _ => ts
  | ServerMessage.errorMsg _ => ts
  | ServerMessage.other _ => ts

/-- Folding a list of server messages over the transcript. -/
def processMessages (ts : List TranscriptItem) (ms : List ServerMessage) :
    List TranscriptItem :=
  ms.foldl handleServerMessage ts

/-- WebSocket ready states relevant to the hook's guards. -/
inductive WsReady
  | connectingWs
  | openWs
  | closingWs
  | closedWs
deriving DecidableEq, Repr

/-- Observable state of the hook: the `wsRef` cell, the `status` state and the
transcript store. -/
structure HookState where
  ws : Option WsReady
  status : SessionStatus
  transcript : List TranscriptItem
deriving DecidableEq, Repr

/-- Client-originated protocol commands emitted by the hook. -/
inductive ClientCommand
  | sessionUpdate
  | itemCreate (itemId : String) (role : Role) (text : String)
  | responseCreate
  | responseCancel
deriving DecidableEq, Repr

/-- Observable side effects of the connection code, in emission order. -/
inductive ConnAction
  | statusChange (s : SessionStatus)
  | sendCommand (c : ClientCommand)
  | awaitKey
  | closeTransport
  | recvConfigAck
  | logWarn
deriving DecidableEq, Repr

/-- `sendUserText` of useRealtimeSession.ts (lines 211-235).  The guard is on
the socket's ready state only; when it passes, the user message is added to the
transcript and an item-creation command plus a generation trigger are sent.
The fresh id `'user_' + Date.now()` is abstracted as the `itemId` argument. -/
def sendUserText (st : HookState) (itemId text : String) :
    HookState × List ClientCommand × List ConnAction :=
  if st.ws == some WsReady.openWs then
    ({ st with transcript := addTranscriptMessage itemId Role.user text st.transcript },
     [ClientCommand.itemCreate itemId Role.user text, ClientCommand.responseCreate],
     [])
  else
    (st, [], [ConnAction.logWarn])

/-- `disconnect` of useRealtimeSession.ts (lines 202-209): close the socket if
one is present, clear the ref, then `updateStatus('DISCONNECTED')`
unconditionally.  `updateStatus` always fires the `onConnectionChange`
callback and logs a status_change event, so a status-change notification is
emitted on every call. -/
def disconnect (st : HookState) : HookState × List ConnAction :=
  (⟨none, SessionStatus.DISCONNECTED, st.transcript⟩,
   (if st.ws.isSome then [ConnAction.closeTransport] else []) ++
     [ConnAction.statusChange SessionStatus.DISCONNECTED])

/-- An inbound transport frame: either a frame that parses to a message, or a
malformed frame on which `JSON.parse` throws (the throw is caught by the
handler's try/catch and logged). -/
inductive Frame
  | good (m : ServerMessage)
  | malformed
deriving DecidableEq, Repr

/-- Log-sink effects of the ws.onmessage handler. -/
inductive LogAction
  | serverEvent
  | parseError
  | unhandled (ty : String)
  | apiError
deriving DecidableEq, Repr

/-- The complete ws.onmessage handler of useRealtimeSession.ts (lines
112-174): malformed frames are caught and logged; parsed messages are logged
and routed by discriminant; the handler only ever mutates the transcript. -/
def wsOnMessage (st : HookState) (f : Frame) : HookState × List LogAction :=
  match f with
  | Frame.malformed => (st, [LogAction.parseError])
  | Frame.good m =>
      let st' := { st with transcript := handleServerMessage st.transcript m }
      let extra := match m with
        | ServerMessage.errorMsg _ => [LogAction.apiError]
        | ServerMessage.other ty => [LogAction.unhandled ty]
        | _ => []
      (st', LogAction.serverEvent :: extra)

/-- Linearization of the observable actions on the successful connect path of
useRealtimeSession.ts: `updateStatus('CONNECTING')`, the awaited ephemeral-key
fetch, then in ws.onopen `updateStatus('CONNECTED')` followed by the
session.update push, and after the 500 ms delay the scripted greeting item
(`'greeting_' + Date.now()`, abstracted as `gid`) and its generation trigger.
No inbound acknowledgment of the pushed configuration is ever waited for. -/
def connectSuccessTrace (gid : String) : List ConnAction :=
  [ ConnAction.statusChange SessionStatus.CONNECTING
  , ConnAction.awaitKey
  , ConnAction.statusChange SessionStatus.CONNECTED
  , ConnAction.sendCommand ClientCommand.sessionUpdate
  , ConnAction.sendCommand (ClientCommand.itemCreate gid Role.user "hi")
  , ConnAction.sendCommand ClientCommand.responseCreate ]

/-! ### Interleaving model of two overlapping connect() calls

`connect` (useRealtimeSession.ts lines 33-57) runs two observable atomic
steps separated by the awaited `getEphemeralKey()`:

* guard step: `if (wsRef.current) return;` then `updateStatus('CONNECTING')`;
* create step: construct the WebSocket and assign `wsRef.current = ws`.

Two invocations interleave at the await boundary. -/

/-- Program counter of one connect() invocation. -/
inductive ConnPC
  | pcGuard
  | pcCreate
  | pcDone
deriving DecidableEq, Repr

/-- Shared state plus the program counters of two connect() invocations.
`created` counts WebSocket constructions (sessions created). -/
structure ConnSt where
  wsPresent : Bool
  status : SessionStatus
  created : Nat
  pc1 : ConnPC
  pc2 : ConnPC
deriving DecidableEq, Repr

/-- One atomic step of thread `t` (`false` = first call, `true` = second). -/
def connStep (s : ConnSt) (t : Bool) : ConnSt :=
  let pc := if t then s.pc2 else s.pc1
  let setPc (s' : ConnSt) (p : ConnPC) : ConnSt :=
    if t then { s' with pc2 := p } else { s' with pc1 := p }
  match pc with
  | ConnPC.pcGuard =>
      if s.wsPresent then setPc s ConnPC.pcDone
      else setPc { s with status := SessionStatus.CONNECTING } ConnPC.pcCreate
  | ConnPC.pcCreate =>
      setPc { s with wsPresent := true, created := s.created + 1 } ConnPC.pcDone
  | ConnPC.pcDone => s

/-- Run a schedule (list of thread choices) from a state. -/
def connRun (s : ConnSt) (sched : List Bool) : ConnSt :=
  sched.foldl connStep s

/-- Initial state: no socket, disconnected, both calls at their guard. -/
def connInit : ConnSt :=
  ⟨false, SessionStatus.DISCONNECTED, 0, ConnPC.pcGuard, ConnPC.pcGuard⟩

/-! ### Delegated tool-call loop
(src/src/app/api/test-connection/route.ts, supervisorAgent part:
`getToolResponse` lines 373-430 and `handleToolCalls` lines 436-504.) -/

/-- One entry of a message item's content array. -/
inductive ContentPart
  | outputText (text : String)
  | otherContent (ty : String)
deriving DecidableEq, Repr

/-- A tool-call arguments string together with the verdict of the external
`JSON.parse` on it.  JSON.parse is the JS runtime's parser, external to the
repository, so its success on a given string is carried as an oracle bit
alongside the string, in the same way `Frame` records whether an inbound
frame parses. -/
structure ArgString where
  raw : String
  parses : Bool
deriving DecidableEq, Repr

/-- Success of `JSON.parse(toolCall.arguments || '...')` (route.ts line 474):
an empty (or absent) arguments string falls back to the literal two-character
object string, which always parses; otherwise success is JSON.parse's verdict
on the string itself. -/
def argsParseOk (a : ArgString) : Bool :=
  a.raw == "" || a.parses

/-- One output item of a Responses API response. -/
inductive OutputItem
  | message (content : List ContentPart)
  | functionCall (callId name : String) (arguments : ArgString)
  | otherItem (ty : String)
deriving DecidableEq, Repr

/-- A response from the remote resolver: either an error marker
(`{ error: ... }`, as `fetchResponsesMessage` returns on a non-ok reply) or an
output-item list. -/
inductive ModelResponse
  | errorResp
  | ok (output : List OutputItem)
deriving DecidableEq, Repr

/-- Local mock results returned by `getToolResponse`, one constructor per
shape of the returned JSON object. -/
inductive ToolResult
  | orderStatusRes (orderFound : Bool)
      (customerName orderNumber statusText estimatedCompletion notes : String)
  | framingInfoRes (entries : List (String × String × String × String))
  | appointmentRes (appointmentLink message : String)
  | companyInfoRes (businessName specialization hours location : String)
      (services : List String) (about : String)
  | defaultRes (result : Bool)
deriving DecidableEq, Repr

/-- Items appended to `body.input` by the loop (`toolCall.arguments` is
pushed verbatim). -/
inductive InputItem
  | funcCall (callId name : String) (arguments : ArgString)
  | funcOutput (callId : String) (output : ToolResult)
deriving DecidableEq, Repr

/-- `getToolResponse` (route.ts lines 373-430): the local resolver mapping a
tool name to its mock result; an unknown name resolves to `{ result: true }`. -/
def getToolResponse (fName : String) : ToolResult :=
  if fName == "getOrderStatus" then
    ToolResult.orderStatusRes true "Sample Customer" "JF-2024-001"
      "In Production - Finishing Stage" "Friday, January 5th"
      "Custom frame for family portrait, using conservation-grade materials"
  else if fName == "lookupFramingInfo" then
    ToolResult.framingInfoRes
      [ ("FRAME-001", "Custom Framing Process", "process",
         "Our custom framing process involves: 1) Initial consultation to understand your vision, 2) Selection of frame, matting, and glass options, 3) Precision cutting and assembly using conservation-grade materials, 4) Quality inspection, 5) Notification when ready for pickup. Typical turnaround is 7-10 business days.")
      , ("FRAME-002", "Materials and Options", "materials",
         "We use only conservation-grade materials including acid-free mats, UV-protective glass, and solid wood frames. We offer over 100 mat colors, various frame styles from classic to contemporary, and specialty options like museum glass and fabric mats.")
      , ("FRAME-003", "Pricing Structure", "pricing",
         "Pricing depends on frame size, materials selected, and complexity. Basic frames start around $75, while premium conservation framing can range $200-500+. We provide detailed quotes during consultation.") ]
  else if fName == "scheduleAppointment" then
    ToolResult.appointmentRes "https://www.jaysframes.com/contact"
      "I've prepared the appointment scheduling link for you. You can visit https://www.jaysframes.com/contact to schedule your consultation at a time that works best for you."
  else if fName == "getCompanyInfo" then
    ToolResult.companyInfoRes "Jay's Frames" "Custom Picture Framing"
      "Monday-Friday 9AM-6PM, Saturday 10AM-4PM, Closed Sunday"
      "Local custom framing shop"
      [ "Custom picture framing", "Art preservation", "Shadow boxes",
        "Canvas stretching", "Frame repair", "Design consultation" ]
      "Jay's Frames specializes in custom picture framing with over 20 years of experience. We use only conservation-grade materials and provide personalized service for each customer's unique framing needs."
  else ToolResult.defaultRes true

/-- The function calls contained in an output-item list, in order. -/
def functionCallsOf (items : List OutputItem) :
    List (String × String × ArgString) :=
  items.filterMap fun it =>
    match it with
    | OutputItem.functionCall cid n a => some (cid, n, a)
    | _ => none

/-- Text of one message item: its output_text parts joined with `''`. -/
def messageText (content : List ContentPart) : String :=
  String.join (content.filterMap fun p =>
    match p with
    | ContentPart.outputText t => some t
    | _ => none)

/-- Final answer assembled by the loop when no function calls remain: the
message items' texts joined with a newline (route.ts lines 455-467). -/
def finalTextOf (items : List OutputItem) : String :=
  String.intercalate "\n" (items.filterMap fun it =>
    match it with
    | OutputItem.message c => some (messageText c)
    | _ => none)

/-- The call-record and result pair appended to `body.input` for the function
calls of one round (route.ts lines 485-498), when every call's arguments
parse. -/
def toolCallAppends (fcs : List (String × String × ArgString)) : List InputItem :=
  fcs.flatMap fun fc =>
    [ InputItem.funcCall fc.1 fc.2.1 fc.2.2
    , InputItem.funcOutput fc.1 (getToolResponse fc.2.1) ]

/-- The per-round `for (const toolCall of functionCalls)` body (route.ts
lines 472-499).  Each iteration first runs
`JSON.parse(toolCall.arguments || '...')` (line 474): when that throws, the
exception propagates out of `handleToolCalls` uncaught — the resolver is not
executed for that call and nothing further is appended; the `error` value
carries `body.input` as already extended by the earlier iterations.
Otherwise the call-record and the local resolver's result are pushed. -/
def processRound (input : List InputItem) :
    List (String × String × ArgString) →
      Except (List InputItem) (List InputItem)
  | [] => Except.ok input
  | fc :: rest =>
      if argsParseOk fc.2.2 then
        processRound
          (input ++ [InputItem.funcCall fc.1 fc.2.1 fc.2.2,
                     InputItem.funcOutput fc.1 (getToolResponse fc.2.1)]) rest
      else Except.error input

/-- Outcome of the loop in the embedding.  `thrown` is the uncaught
`JSON.parse` exception escaping the loop.  `outOfScript` is a model artifact:
the scripted remote ran out of responses, i.e. the real loop would still be
running after as many rounds as the script provided. -/
inductive LoopResult
  | answer (text : String)
  | errorResult
  | thrown
  | outOfScript
deriving DecidableEq, Repr

/-- `handleToolCalls` (route.ts lines 436-504): the `while (true)` loop over
responses.  The remote is embedded as a script `rest` of the responses the
successive `fetchResponsesMessage` calls would return.  Returns the outcome,
the final `body.input` and the number of responses inspected (rounds).
Neither this function nor its caller catches the `JSON.parse` throw from a
malformed arguments string, so that throw ends the loop. -/
def handleToolCalls (input : List InputItem) (resp : ModelResponse)
    (rest : List ModelResponse) : LoopResult × List InputItem × Nat :=
  match resp with
  | ModelResponse.errorResp => (LoopResult.errorResult, input, 1)
  | ModelResponse.ok out =>
      let fcs := functionCallsOf out
      if fcs.isEmpty then (LoopResult.answer (finalTextOf out), input, 1)
      else
        match processRound input fcs with
        | Except.error inputAtThrow => (LoopResult.thrown, inputAtThrow, 1)
        | Except.ok input' =>
            match rest with
            | [] => (LoopResult.outOfScript, input', 1)
            | r :: rs =>
                let next := handleToolCalls input' r rs
                (next.1, next.2.1, next.2.2 + 1)

/-! ### Guardrail appension (src/src/app/App.tsx lines 42-64) -/

/-- A guardrail as the appension effect sees it: keyed by its name.  The
moderation check itself is external to the appension logic. -/
structure Guardrail where
  name : String
deriving DecidableEq, Repr

/-- An agent definition as the guardrail effect sees it.  `guardrails` is
`none` when the agent object carries no guardrails array (the JS guard
`agent.guardrails && ...` then skips the push). -/
structure AgentDef where
  name : String
  guardrails : Option (List Guardrail)
deriving DecidableEq, Repr

/-- The per-agent body of the effect:
`if (agent.guardrails && !agent.guardrails.some(g => g.name === guardrail.name))
   agent.guardrails.push(guardrail);`. -/
def addGuardrailToAgent (g : Guardrail) (a : AgentDef) : AgentDef :=
  match a.guardrails with
  | none => a
  | some gs =>
      if gs.any fun x => x.name == g.name then a
      else { a with guardrails := some (gs ++ [g]) }

/-- One run of the guardrail setup over an agent set. -/
def applyGuardrailSetup (g : Guardrail) (agents : List AgentDef) : List AgentDef :=
  agents.map (addGuardrailToAgent g)

/-- Number of guardrails with the given name held by an agent. -/
def guardrailCount (a : AgentDef) (n : String) : Nat :=
  match a.guardrails with
  | none => 0
  | some gs => (gs.filter fun x => x.name == n).length

/-! ### Order status lookup (src/src/app/lib/orderStatusApi.ts lines 14-96) -/

/-- One record of the mock order table. -/
structure OrderRecord where
  customerName : String
  orderNumber : String
  statusText : String
  estimatedCompletion : String
  notes : String
deriving DecidableEq, Repr

/-- The `mockOrders` table. -/
def mockOrders : List OrderRecord :=
  [ ⟨"Sarah Johnson", "JF-2024-001", "In Production - Finishing Stage",
     "Friday, January 5th",
     "Custom frame for family portrait, using conservation-grade materials"⟩
  , ⟨"Mike Chen", "JF-2024-002", "Ready for Pickup", "Completed - Ready Now",
     "Wedding photo in silver frame - customer has been notified"⟩
  , ⟨"Lisa Rodriguez", "JF-2024-003", "In Queue - Awaiting Materials",
     "Next Tuesday, January 9th",
     "Art print with museum glass - special order glass arriving Monday"⟩
  , ⟨"David Wilson", "JF-2024-004",
     "Design Phase - Awaiting Customer Approval", "Pending customer decision",
     "Multiple frame options prepared for customer review"⟩ ]

/-- Result of `fetchOrderStatus`: the found record spread with
`order_found: true`, or `{ order_found: false, error }`. -/
inductive OrderStatus
  | found (r : OrderRecord)
  | notFound (error : String)
deriving DecidableEq, Repr

/-- JavaScript truthiness of an optional string parameter: `undefined` and
`""` are both falsy. -/
def truthy : Option String → Bool
  | none => false
  | some s => s != ""

/-- The first list is a prefix of the second. -/
def charsPrefix : List Char → List Char → Bool
  | [], _ => true
  | _ :: _, [] => false
  | a :: as, b :: bs => a == b && charsPrefix as bs

/-- The first list occurs contiguously inside the second. -/
def charsInfix : List Char → List Char → Bool
  | n, [] => n.isEmpty
  | n, c :: t => charsPrefix n (c :: t) || charsInfix n t

/-- `hay.includes(needle)` on the underlying characters. -/
def strIncludes (hay needle : String) : Bool :=
  charsInfix needle.data hay.data

/-- `fetchOrderStatus(customerName?, orderNumber?)` (orderStatusApi.ts lines
14-96).  Both parameters falsy: an error result.  Otherwise search by customer
name first (case-insensitive substring on the stored customer_name), else by
order number (case-insensitive equality). -/
def fetchOrderStatus (customerName orderNumber : Option String) : OrderStatus :=
  if !truthy customerName && !truthy orderNumber then
    OrderStatus.notFound
      "Please provide either a customer name or order number to search."
  else
    let foundOrder : Option OrderRecord :=
      if truthy customerName then
        mockOrders.find? fun o =>
          strIncludes o.customerName.toLower
            (customerName.getD "").toLower
      else if truthy orderNumber then
        mockOrders.find? fun o =>
          o.orderNumber.toLower == (orderNumber.getD "").toLower
      else none
    match foundOrder with
    | some o => OrderStatus.found o
    | none =>
        OrderStatus.notFound
          ((("No order found for " ++
             (match customerName with
              | some cn => if cn != "" then "customer \"" ++ cn ++ "\""
                  else "order number \"" ++ (orderNumber.getD "") ++ "\""
              | none => "order number \"" ++ (orderNumber.getD "") ++ "\"")) ++
            ". Please check the spelling or contact us if you need assistance."))

/-! ### Helper lemmas -/

theorem textOf_replace (i t : String) (ts : List TranscriptItem) :
    textOf i (updateTranscriptMessage i t false ts) = some t := by
  induction ts with
  | nil => simp [updateTranscriptMessage, textOf, List.find?]
  | cons it rest ih =>
      cases hb : (it.itemId == i) with
      | true => simp [updateTranscriptMessage, hb, textOf, List.find?]
      | false =>
          simpa [updateTranscriptMessage, hb, textOf, List.find?] using ih

theorem updateItem_keeps_text (i t : String) (s : ItemStatus)
    (ts : List TranscriptItem) (h : textOf i ts = some t) :
    textOf i (updateTranscriptItem i s ts) = some t ∧
    statusOf i (updateTranscriptItem i s ts) = some s := by
  induction ts with
  | nil => simp [textOf, List.find?] at h
  | cons it rest ih =>
      cases hb : (it.itemId == i) with
      | true =>
          have hht : it.text = t := by
            simpa [textOf, List.find?, hb] using h
          simp [updateTranscriptItem, textOf, statusOf, List.find?, hb, hht]
      | false =>
          have h' : textOf i rest = some t := by
            simpa only [textOf, List.find?, hb, cond_false] using h
          have hrec := ih h'
          simpa [updateTranscriptItem, textOf, statusOf, List.map_cons,
            List.find?, hb, cond_false] using hrec

theorem connRun_done (s : ConnSt) (h1 : s.pc1 = ConnPC.pcDone)
    (h2 : s.pc2 = ConnPC.pcDone) (σ : List Bool) : connRun s σ = s := by
  induction σ with
  | nil => rfl
  | cons b σ ih =>
      have hstep : connStep s b = s := by
        cases b <;> simp [connStep, h1, h2]
      simpa [connRun, hstep] using ih

theorem addGuardrail_idem (g : Guardrail) (b : AgentDef) :
    addGuardrailToAgent g (addGuardrailToAgent g b) = addGuardrailToAgent g b := by
  cases hgs : b.guardrails with
  | none => simp [addGuardrailToAgent, hgs]
  | some gs =>
      cases ha : (gs.any fun x => x.name == g.name) with
      | true => simp [addGuardrailToAgent, hgs, ha]
      | false =>
          simp [addGuardrailToAgent, hgs, ha, List.any_append]

theorem addGuardrail_iterate (g : Guardrail) (a : AgentDef) (n : Nat) :
    (addGuardrailToAgent g)^[n] (addGuardrailToAgent g a) = addGuardrailToAgent g a := by
  induction n with
  | zero => rfl
  | succ n ih =>
      rw [Function.iterate_succ_apply, addGuardrail_idem, ih]

theorem processRound_all_ok (fcs : List (String × String × ArgString))
    (h : ∀ fc ∈ fcs, argsParseOk fc.2.2 = true) (input : List InputItem) :
    processRound input fcs = Except.ok (input ++ toolCallAppends fcs) := by
  induction fcs generalizing input with
  | nil => simp [processRound, toolCallAppends]
  | cons fc rest ih =>
      have hfc : argsParseOk fc.2.2 = true := h fc (List.mem_cons_self _ _)
      have hrest : ∀ x ∈ rest, argsParseOk x.2.2 = true := fun x hx =>
        h x (List.mem_cons_of_mem _ hx)
      simp [processRound, hfc, toolCallAppends, ih hrest, List.append_assoc]

/-! ### Claim C1 -/

/-- Claim C1, counterexample to the statement as written: a done event whose
transcript field is the empty string does not become the item's final text;
the handler substitutes the placeholder `[Audio response completed]`
(useRealtimeSession.ts line 139: `message.transcript || '...'`). -/
theorem c1_done_transcript_counterexample :
    textOf "item_1" (processMessages []
      [ServerMessage.transcriptDelta "item_1" "Hel",
       ServerMessage.transcriptDone "item_1" ""]) ≠ some "" ∧
    textOf "item_1" (processMessages []
      [ServerMessage.transcriptDelta "item_1" "Hel",
       ServerMessage.transcriptDone "item_1" ""]) =
      some "[Audio response completed]" := by
  constructor <;> decide

/-- Claim C1 (amended): for every prior transcript, every sequence of delta
events for an item id followed by one done event with a non-empty transcript
field, the item's final text is exactly the done event's transcript field
(never the accumulated deltas) and its status is DONE; when the transcript
field is empty or absent the final text is the fixed placeholder instead. -/
theorem c1_done_text_authoritative (ts : List TranscriptItem) (ds : List String)
    (i t : String) (hi : i ≠ "") (ht : t ≠ "") :
    textOf i (processMessages ts
      (ds.map (ServerMessage.transcriptDelta i) ++
        [ServerMessage.transcriptDone i t])) = some t ∧
    statusOf i (processMessages ts
      (ds.map (ServerMessage.transcriptDelta i) ++
        [ServerMessage.transcriptDone i t])) = some ItemStatus.DONE := by
  have hfold :
      processMessages ts (ds.map (ServerMessage.transcriptDelta i) ++
        [ServerMessage.transcriptDone i t]) =
      handleServerMessage
        (processMessages ts (ds.map (ServerMessage.transcriptDelta i)))
        (ServerMessage.transcriptDone i t) := by
    simp [processMessages, List.foldl_append]
  rw [hfold]
  set ts' := processMessages ts (ds.map (ServerMessage.transcriptDelta i)) with hts'
  have hi' : (i != "") = true := by simpa using hi
  have ht' : (t != "") = true := by simpa using ht
  have hstep :
      handleServerMessage ts' (ServerMessage.transcriptDone i t) =
      updateTranscriptItem i ItemStatus.DONE
        (updateTranscriptMessage i t false ts') := by
    simp [handleServerMessage, hi', ht']
  rw [hstep]
  exact updateItem_keeps_text i t ItemStatus.DONE _ (textOf_replace i t ts')

/-- Claim C1, witness: concrete run of the amended theorem. -/
theorem c1_done_text_authoritative_witness :
    textOf "item_1" (processMessages [] (["He", "llo"].map
      (ServerMessage.transcriptDelta "item_1") ++
      [ServerMessage.transcriptDone "item_1" "Hi!"])) = some "Hi!" ∧
    statusOf "item_1" (processMessages [] (["He", "llo"].map
      (ServerMessage.transcriptDelta "item_1") ++
      [ServerMessage.transcriptDone "item_1" "Hi!"])) = some ItemStatus.DONE :=
  c1_done_text_authoritative [] ["He", "llo"] "item_1" "Hi!"
    (by decide) (by decide)

/-! ### Claim C2 -/

/-- Claim C2, counterexample: after the first connect() has run its guard step
the status is CONNECTING and the second call has not started; scheduling the
second call's guard next (while the first is still awaiting its credential,
before `wsRef.current` is assigned) lets both calls create a WebSocket, so two
sessions are created, not one. -/
theorem c2_double_connect_counterexample :
    (connRun connInit [false]).status = SessionStatus.CONNECTING ∧
    (connRun connInit [false]).pc1 ≠ ConnPC.pcDone ∧
    (connRun connInit [false, true, false, true]).created = 2 := by
  decide

/-- Claim C2 (amended): the `wsRef.current` guard only takes effect once the
first connect() has created its transport: whenever the second connect()'s
guard step runs after the first call's create step, the second call is a
no-op and exactly one session is ever created, however the remaining steps
are scheduled; a second connect() that runs its guard during the first call's
pending credential fetch is not blocked and creates a second transport. -/
theorem c2_connect_noop_after_create (σ : List Bool) :
    (connRun connInit ([false, false, true] ++ σ)).created = 1 ∧
    (connRun connInit [false, false, true]).pc2 = ConnPC.pcDone ∧
    (connRun connInit [false, true, false, true]).created = 2 := by
  have hbase : connRun connInit [false, false, true] =
      ⟨true, SessionStatus.CONNECTING, 1, ConnPC.pcDone, ConnPC.pcDone⟩ := by
    decide
  refine ⟨?_, by rw [hbase], by decide⟩
  have happ : connRun connInit ([false, false, true] ++ σ) =
      connRun (connRun connInit [false, false, true]) σ := by
    simp [connRun, List.foldl_append]
  rw [happ, hbase, connRun_done _ rfl rfl]

/-! ### Claim C3 -/

/-- Claim C3, counterexample to the statement as written: a first response
with exactly one function-call item whose arguments string is not valid JSON
makes `JSON.parse(toolCall.arguments || ...)` (route.ts line 474) throw out
of the loop before the resolver runs — nothing is appended to the context, no
resubmission happens, and the second response's text is never returned, so
the two-round scenario fails for this argument string. -/
theorem c3_malformed_args_counterexample :
    handleToolCalls []
      (ModelResponse.ok [OutputItem.functionCall "call_1" "lookupInfo"
        ⟨"topic pricing", false⟩])
      [ModelResponse.ok [OutputItem.message
        [ContentPart.outputText "Basic frames start around $75."]]] =
      (LoopResult.thrown, [], 1) := by
  decide

/-- Claim C3 (amended): if the first response has zero function-call items
the loop returns the in-order assembled text after exactly one round with the
context untouched, for every continuation script; if the first response has
exactly one function-call item whose arguments string JSON.parse accepts (or
the empty string, which falls back to the empty-object literal) and the
second response has none, the loop executes the local resolver for that call,
appends the call-record and result pair to the running context, resubmits
exactly once and returns the second response's text (two rounds); a
malformed arguments string instead throws out of the loop before the
resolver runs. -/
theorem c3_tool_call_loop_rounds (input : List InputItem)
    (out1 out2 : List OutputItem) (rest : List ModelResponse)
    (cid n : String) (a : ArgString)
    (h1 : functionCallsOf out1 = [(cid, n, a)])
    (hpa : argsParseOk a = true)
    (h2 : functionCallsOf out2 = []) :
    (∀ (out : List OutputItem) (rest0 : List ModelResponse),
        functionCallsOf out = [] →
        handleToolCalls input (ModelResponse.ok out) rest0 =
          (LoopResult.answer (finalTextOf out), input, 1)) ∧
    handleToolCalls input (ModelResponse.ok out1)
        (ModelResponse.ok out2 :: rest) =
      (LoopResult.answer (finalTextOf out2),
       input ++ [InputItem.funcCall cid n a,
                 InputItem.funcOutput cid (getToolResponse n)], 2) := by
  constructor
  · intro out rest0 h0
    simp [handleToolCalls, h0]
  · simp [handleToolCalls, h1, h2, processRound, hpa]

/-- Claim C3, witness: concrete two-round run with one `lookupInfo` call
whose arguments string is the JSON object with a pricing topic. -/
theorem c3_tool_call_loop_rounds_witness :
    handleToolCalls [] (ModelResponse.ok
        [OutputItem.functionCall "call_1" "lookupInfo"
          ⟨"\x7b\"topic\":\"pricing\"\x7d", true⟩])
      [ModelResponse.ok [OutputItem.message
        [ContentPart.outputText "Basic frames start around $75."]]] =
      (LoopResult.answer "Basic frames start around $75.",
       [InputItem.funcCall "call_1" "lookupInfo"
          ⟨"\x7b\"topic\":\"pricing\"\x7d", true⟩,
        InputItem.funcOutput "call_1" (getToolResponse "lookupInfo")], 2) :=
  (c3_tool_call_loop_rounds []
    [OutputItem.functionCall "call_1" "lookupInfo"
      ⟨"\x7b\"topic\":\"pricing\"\x7d", true⟩]
    [OutputItem.message [ContentPart.outputText "Basic frames start around $75."]]
    [] "call_1" "lookupInfo" ⟨"\x7b\"topic\":\"pricing\"\x7d", true⟩
    (by decide) (by decide) (by decide)).2

/-! ### Claim C4 -/

/-- Claim C4, counterexample to the statement as written: a script in which
every response carries a function-call item and no error marker does not
always keep the loop running — when the first call's arguments string is
malformed, `JSON.parse` (route.ts line 474) throws and the loop terminates
after one round with one scripted response still unconsumed, so the loop
also ends on a condition other than a zero-function-call response or an
error marker. -/
theorem c4_malformed_args_counterexample :
    handleToolCalls []
      (ModelResponse.ok [OutputItem.functionCall "c1" "getOrderStatus"
        ⟨"oops", false⟩])
      [ModelResponse.ok [OutputItem.functionCall "c2" "getOrderStatus"
        ⟨"oops", false⟩]] =
      (LoopResult.thrown, [], 1) := by
  decide

/-- Claim C4 (amended): the loop enforces no round cap.  If every scripted
response carries at least one function-call item, no error marker, and only
calls whose arguments strings JSON.parse accepts, the loop consumes the
entire script — however long — and is still unresolved, having used one
round per response; whenever the loop does resolve to an answer, some
inspected response carried zero function-call items; besides resolving and
the error marker, the only other exit is the uncaught JSON.parse throw on a
malformed arguments string. -/
theorem c4_no_round_cap (input : List InputItem) (resp : ModelResponse)
    (rest : List ModelResponse)
    (hall : ∀ r ∈ resp :: rest, ∃ out, r = ModelResponse.ok out ∧
      functionCallsOf out ≠ [] ∧
      ∀ fc ∈ functionCallsOf out, argsParseOk fc.2.2 = true) :
    ((handleToolCalls input resp rest).1 = LoopResult.outOfScript ∧
     (handleToolCalls input resp rest).2.2 = rest.length + 1) ∧
    ∀ (input0 : List InputItem) (resp0 : ModelResponse)
      (rest0 : List ModelResponse) (t : String),
      (handleToolCalls input0 resp0 rest0).1 = LoopResult.answer t →
      ∃ r ∈ resp0 :: rest0, ∃ out, r = ModelResponse.ok out ∧
        functionCallsOf out = [] := by
  constructor
  · induction rest generalizing input resp with
    | nil =>
        obtain ⟨out, rfl, hfc, hpa⟩ := hall resp (List.mem_cons_self _ _)
        have hne : (functionCallsOf out).isEmpty = false := by
          simpa [List.isEmpty_iff] using hfc
        simp [handleToolCalls, hne, processRound_all_ok _ hpa]
    | cons r rs ih =>
        obtain ⟨out, rfl, hfc, hpa⟩ := hall _ (List.mem_cons_self _ _)
        have hne : (functionCallsOf out).isEmpty = false := by
          simpa [List.isEmpty_iff] using hfc
        have hall' : ∀ x ∈ r :: rs, ∃ o, x = ModelResponse.ok o ∧
            functionCallsOf o ≠ [] ∧
            ∀ fc ∈ functionCallsOf o, argsParseOk fc.2.2 = true := by
          intro x hx
          exact hall x (List.mem_cons_of_mem _ hx)
        have := ih (input ++ toolCallAppends (functionCallsOf out)) r hall'
        simp [handleToolCalls, hne, processRound_all_ok _ hpa, this.1, this.2]
  · intro input0 resp0 rest0 t
    induction rest0 generalizing input0 resp0 with
    | nil =>
        intro h
        cases resp0 with
        | errorResp => simp [handleToolCalls] at h
        | ok out =>
            cases hne : (functionCallsOf out).isEmpty with
            | true =>
                exact ⟨ModelResponse.ok out, List.mem_cons_self _ _, out, rfl,
                  by simpa [List.isEmpty_iff] using hne⟩
            | false =>
                cases hpr : processRound input0 (functionCallsOf out) with
                | error inputAtThrow => simp [handleToolCalls, hne, hpr] at h
                | ok input1 => simp [handleToolCalls, hne, hpr] at h
    | cons r rs ih =>
        intro h
        cases resp0 with
        | errorResp => simp [handleToolCalls] at h
        | ok out =>
            cases hne : (functionCallsOf out).isEmpty with
            | true =>
                exact ⟨ModelResponse.ok out, List.mem_cons_self _ _, out, rfl,
                  by simpa [List.isEmpty_iff] using hne⟩
            | false =>
                cases hpr : processRound input0 (functionCallsOf out) with
                | error inputAtThrow => simp [handleToolCalls, hne, hpr] at h
                | ok input1 =>
                    simp only [handleToolCalls, hne, hpr] at h
                    obtain ⟨x, hx, hout⟩ := ih input1 r h
                    exact ⟨x, List.mem_cons_of_mem _ hx, hout⟩

/-- Claim C4, witness: a one-response script that is all function calls with
an absent arguments string ends the script unresolved after one round. -/
theorem c4_no_round_cap_witness :
    (handleToolCalls [] (ModelResponse.ok
        [OutputItem.functionCall "c1" "getOrderStatus" ⟨"", false⟩]) []).1 =
      LoopResult.outOfScript ∧
    (handleToolCalls [] (ModelResponse.ok
        [OutputItem.functionCall "c1" "getOrderStatus" ⟨"", false⟩]) []).2.2 = 1 :=
  (c4_no_round_cap [] (ModelResponse.ok
      [OutputItem.functionCall "c1" "getOrderStatus" ⟨"", false⟩]) []
    (by
      intro r hr
      simp only [List.mem_cons, List.not_mem_nil, or_false] at hr
      exact hr ▸ ⟨_, rfl, by decide, by decide⟩)).1

/-! ### Claim C5 -/

/-- Claim C5, counterexample: on the successful connect path the status
becomes CONNECTED at index 2 of the action trace, before any session.update
command is sent (index 3) and without any configuration acknowledgment ever
being received: the ws.onopen handler flips the status first, then pushes the
configuration, and nothing waits for an acknowledgment. -/
theorem c5_connected_before_ack_counterexample :
    (connectSuccessTrace "greeting_1").get? 2 =
      some (ConnAction.statusChange SessionStatus.CONNECTED) ∧
    ((connectSuccessTrace "greeting_1").take 2).all
      (fun a => a != ConnAction.sendCommand ClientCommand.sessionUpdate) = true ∧
    ConnAction.recvConfigAck ∉ connectSuccessTrace "greeting_1" := by
  refine ⟨by decide, by decide, by decide⟩

/-- Claim C5 (amended): the status becomes CONNECTED exactly once, when the
socket opens — before the session configuration is pushed and with no
acknowledgment ever awaited; the scripted opening message is sent exactly
once, after the CONNECTED transition and the configuration push. -/
theorem c5_connected_on_transport_open (gid : String) :
    ((connectSuccessTrace gid).filter (fun a =>
        match a with
        | ConnAction.statusChange SessionStatus.CONNECTED => true
        | _ => false)).length = 1 ∧
    (connectSuccessTrace gid).get? 2 =
      some (ConnAction.statusChange SessionStatus.CONNECTED) ∧
    (connectSuccessTrace gid).get? 3 =
      some (ConnAction.sendCommand ClientCommand.sessionUpdate) ∧
    (connectSuccessTrace gid).get? 4 =
      some (ConnAction.sendCommand (ClientCommand.itemCreate gid Role.user "hi")) ∧
    ((connectSuccessTrace gid).filter (fun a =>
        match a with
        | ConnAction.sendCommand (ClientCommand.itemCreate _ _ _) => true
        | _ => false)).length = 1 ∧
    ConnAction.recvConfigAck ∉ connectSuccessTrace gid := by
  refine ⟨?_, rfl, rfl, rfl, ?_, ?_⟩
  · simp [connectSuccessTrace, List.filter]
  · simp [connectSuccessTrace, List.filter]
  · simp [connectSuccessTrace]

/-! ### Claim C6 -/

/-- Claim C6, counterexample: sendUserText with the empty string while the
socket is open is not a no-op — the hook has no empty-input guard (that guard
lives in the UI's handleSendTextMessage): it emits the creation command and
the generation trigger and adds an empty user message to the transcript. -/
theorem c6_empty_text_counterexample :
    (sendUserText ⟨some WsReady.openWs, SessionStatus.CONNECTED, []⟩
      "user_1" "").2.1 ≠ [] ∧
    (sendUserText ⟨some WsReady.openWs, SessionStatus.CONNECTED, []⟩
      "user_1" "").1.transcript ≠ [] := by
  refine ⟨by decide, by decide⟩

/-- Claim C6 (amended): sendUserText called while the socket is not open
(absent or in any non-OPEN ready state) is a no-op — no command is emitted,
the transcript is not mutated, and the call is only logged, never thrown; a
call with the empty string while the socket is open is not guarded and emits
the usual commands. -/
theorem c6_send_requires_open_socket (st : HookState) (itemId text : String)
    (h : st.ws ≠ some WsReady.openWs) :
    (sendUserText st itemId text).1 = st ∧
    (sendUserText st itemId text).2.1 = [] ∧
    (sendUserText st itemId text).2.2 = [ConnAction.logWarn] := by
  have hb : (st.ws == some WsReady.openWs) = false := by
    simpa using h
  simp [sendUserText, hb]

/-- Claim C6, witness: sendUserText during DISCONNECTED (no socket). -/
theorem c6_send_requires_open_socket_witness :
    (sendUserText ⟨none, SessionStatus.DISCONNECTED, []⟩ "user_1" "hello").1 =
      ⟨none, SessionStatus.DISCONNECTED, []⟩ ∧
    (sendUserText ⟨none, SessionStatus.DISCONNECTED, []⟩ "user_1" "hello").2.1 = [] ∧
    (sendUserText ⟨none, SessionStatus.DISCONNECTED, []⟩ "user_1" "hello").2.2 =
      [ConnAction.logWarn] :=
  c6_send_requires_open_socket ⟨none, SessionStatus.DISCONNECTED, []⟩
    "user_1" "hello" (by decide)

/-! ### Claim C7 -/

/-- Claim C7, counterexample: disconnect() when already DISCONNECTED leaves
the state unchanged but is not observation-free — `updateStatus` fires the
onConnectionChange callback and logs a status_change event on every call, so
a notification is emitted. -/
theorem c7_disconnect_notification_counterexample :
    (disconnect ⟨none, SessionStatus.DISCONNECTED, []⟩).1 =
      ⟨none, SessionStatus.DISCONNECTED, []⟩ ∧
    (disconnect ⟨none, SessionStatus.DISCONNECTED, []⟩).2 ≠ [] := by
  refine ⟨by decide, by decide⟩

/-- Claim C7 (amended): disconnect() is idempotent at the state level and safe
from any state — it always yields no socket and status DISCONNECTED and never
errors — but each call, including one made while already DISCONNECTED,
re-emits the status-change notification. -/
theorem c7_disconnect_idempotent_state (st : HookState) :
    (disconnect st).1 = ⟨none, SessionStatus.DISCONNECTED, st.transcript⟩ ∧
    (disconnect (disconnect st).1).1 = (disconnect st).1 ∧
    (disconnect (disconnect st).1).2 =
      [ConnAction.statusChange SessionStatus.DISCONNECTED] := by
  simp [disconnect]

/-! ### Claim C8 -/

/-- Claim C8: an inbound event with an unrecognized discriminant is logged and
dropped, and a malformed (unparseable) frame is caught and logged; in both
cases the handler returns normally and the connection state, socket and
transcript are unchanged. -/
theorem c8_unknown_and_malformed_dropped (st : HookState) (ty : String) :
    wsOnMessage st (Frame.good (ServerMessage.other ty)) =
      (st, [LogAction.serverEvent, LogAction.unhandled ty]) ∧
    wsOnMessage st Frame.malformed = (st, [LogAction.parseError]) := by
  refine ⟨?_, rfl⟩
  simp [wsOnMessage, handleServerMessage]

/-! ### Claim C9 -/

/-- Claim C9: guardrail appension is idempotent keyed by guardrail name —
adding a guardrail whose name an agent already holds is a no-op — so for an
agent whose guardrail sequence initially lacks the name, running the setup
any positive number of times leaves exactly one guardrail of that name; and
one extra run of the whole per-agent-set setup changes nothing. -/
theorem c9_guardrail_appension_idempotent (g : Guardrail) (a : AgentDef)
    (gs : List Guardrail) (hgs : a.guardrails = some gs)
    (h0 : guardrailCount a g.name = 0) :
    (∀ b : AgentDef,
        addGuardrailToAgent g (addGuardrailToAgent g b) = addGuardrailToAgent g b) ∧
    (∀ agents : List AgentDef,
        applyGuardrailSetup g (applyGuardrailSetup g agents) =
          applyGuardrailSetup g agents) ∧
    ∀ n : Nat, guardrailCount ((addGuardrailToAgent g)^[n + 1] a) g.name = 1 := by
  refine ⟨addGuardrail_idem g, ?_, ?_⟩
  · intro agents
    simp only [applyGuardrailSetup, List.map_map]
    exact List.map_congr_left fun b _ => addGuardrail_idem g b
  · intro n
    have hfilter : (gs.filter fun x => x.name == g.name) = [] := by
      have := h0
      simp only [guardrailCount, hgs] at this
      exact List.length_eq_zero.mp this
    have hany : (gs.any fun x => x.name == g.name) = false := by
      cases hx : gs.any fun x => x.name == g.name with
      | false => rfl
      | true =>
          obtain ⟨x, hmem, hx'⟩ := List.any_eq_true.mp hx
          have : x ∈ gs.filter fun x => x.name == g.name :=
            List.mem_filter.mpr ⟨hmem, hx'⟩
          simp [hfilter] at this
    have hone : guardrailCount (addGuardrailToAgent g a) g.name = 1 := by
      simp [addGuardrailToAgent, hgs, hany, guardrailCount,
        List.filter_append, hfilter]
    rw [Function.iterate_succ_apply, addGuardrail_iterate]
    exact hone

/-- Claim C9, witness: three runs of the setup on an agent with an empty
guardrail sequence leave exactly one guardrail of the added name. -/
theorem c9_guardrail_appension_idempotent_witness :
    guardrailCount ((addGuardrailToAgent ⟨"moderation"⟩)^[3]
      ⟨"chatAgent", some []⟩) "moderation" = 1 :=
  (c9_guardrail_appension_idempotent ⟨"moderation"⟩ ⟨"chatAgent", some []⟩
    [] rfl (by decide)).2.2 2

/-! ### Claim C10 -/

/-- Claim C10: with both parameters absent (or empty: JavaScript treats both
as falsy) fetchOrderStatus reports order_found false with a fixed non-empty
error message and returns no order; with a non-empty customerName the result
is independent of any supplied orderNumber and any returned order matched the
stored customer_name by case-insensitive substring. -/
theorem c10_fetch_order_status (cn onA onB onC : Option String) (s : String)
    (h1 : truthy cn = false) (h2 : truthy onA = false) (hs : s ≠ "") :
    (fetchOrderStatus cn onA = OrderStatus.notFound
        "Please provide either a customer name or order number to search." ∧
     ∀ r, fetchOrderStatus cn onA ≠ OrderStatus.found r) ∧
    fetchOrderStatus (some s) onB = fetchOrderStatus (some s) onC ∧
    ∀ r, fetchOrderStatus (some s) onB = OrderStatus.found r →
      strIncludes r.customerName.toLower s.toLower = true := by
  have htr : truthy (some s) = true := by simpa [truthy] using hs
  refine ⟨⟨?_, ?_⟩, ?_, ?_⟩
  · simp [fetchOrderStatus, h1, h2]
  · intro r
    simp [fetchOrderStatus, h1, h2]
  · simp [fetchOrderStatus, htr, hs]
  · intro r hr
    simp only [fetchOrderStatus, htr, hs, Option.getD_some, Bool.not_true,
      Bool.false_and, Bool.false_eq_true, if_false, if_neg] at hr
    rcases hfind : List.find?
        (fun o => strIncludes o.customerName.toLower s.toLower) mockOrders with
      _ | o
    · rw [hfind] at hr
      simp at hr
    · rw [hfind] at hr
      have hmatch := List.find?_some hfind
      cases hr
      exact hmatch

/-- Claim C10, witness: no-parameters error result, and a case-insensitive
substring customer search that ignores a mismatching order number. -/
theorem c10_fetch_order_status_witness :
    fetchOrderStatus none none = OrderStatus.notFound
      "Please provide either a customer name or order number to search." ∧
    fetchOrderStatus (some "sarah") (some "JF-2024-002") =
      fetchOrderStatus (some "sarah") none :=
  ⟨(c10_fetch_order_status none none none none "sarah" rfl rfl
      (by decide)).1.1,
   (c10_fetch_order_status none none (some "JF-2024-002") none "sarah" rfl rfl
      (by decide)).2.1⟩

end RealtimeSpec
